import Mathlib

/-!
Shallow embedding of the package-index validator in src/action.py and
verification of its natural-language specification.

The Python source is translated function by function.  Machine strings are
Lean `String`s, Python `float` values are modelled as exact rationals,
assertion failures of the unittest harness are modelled as a `fail` outcome,
and uncaught Python exceptions are modelled as a distinct `crash` outcome.
All definitions are executable.
-/

namespace StSchema

/-! ## Character and string helpers (ASCII models of Python primitives) -/

/-- ASCII model of the characters matched by the regular expression class
of whitespace characters used by Python's re module. -/
def isPySpace (c : Char) : Bool :=
  c = ' ' || c = '\t' || c = '\n' || c = '\r' || c = '\x0b' || c = '\x0c'

/-- The substring after the last slash, as computed by Python
`s.rsplit("/", 1)[-1]` (the whole string when no slash occurs). -/
def afterLastSlash (l : List Char) : List Char :=
  (l.reverse.takeWhile (fun c => c ≠ '/')).reverse

def stripLeadingSlashes (l : List Char) : List Char :=
  l.dropWhile (fun c => c = '/')

def stripTrailingSlashes (l : List Char) : List Char :=
  (l.reverse.dropWhile (fun c => c = '/')).reverse

/-- Model of Python `s.strip("/")`: removes slashes from both ends. -/
def pyStripSlashes (l : List Char) : List Char :=
  stripLeadingSlashes (stripTrailingSlashes l)

/-- Python truthiness of an optional string value: a missing key and an
empty string are both falsy. -/
def truthyStr : Option String → Option String
  | some s => if s = "" then none else some s
  | none => none

/-- Translation of `get_package_name` (src/action.py line 142):
`data.get("name") or data.get("details").strip("/").rsplit("/", 1)[-1]`.
The result `none` models the uncaught `AttributeError` raised when the
`name` key is absent or falsy and `details` is also absent
(`None.strip` does not exist). -/
def get_package_name (name details : Option String) : Option String :=
  match truthyStr name with
  | some n => some n
  | none =>
    match details with
    | some d => some (String.mk (afterLastSlash (pyStripSlashes d.toList)))
    | none => none

/-- Stated from the words of claim C10 (for the refinement comparison):
the last slash-separated segment of the details value after stripping
trailing slashes only. -/
def claimFallbackName (d : String) : String :=
  String.mk (afterLastSlash (stripTrailingSlashes d.toList))

/-! ## Indentation check -/

/-- Worker for `splitlines`. -/
def splitlinesAux : List Char → List Char → List (List Char)
  | [], acc => if acc.isEmpty then [] else [acc.reverse]
  | '\r' :: '\n' :: rest, acc => acc.reverse :: splitlinesAux rest []
  | '\r' :: rest, acc => acc.reverse :: splitlinesAux rest []
  | '\n' :: rest, acc => acc.reverse :: splitlinesAux rest []
  | c :: rest, acc => splitlinesAux rest (c :: acc)

/-- Model of Python `str.splitlines` (ASCII newline model): splits at line
terminators and produces no trailing empty line. -/
def splitlines (s : String) : List (List Char) :=
  splitlinesAux s.toList []

/-- Compiled form of a search for the anchored regular expression used by
`_test_indentation` (line 332): zero or more tabs followed by one
non-whitespace character. -/
def matchTabsNonSpace : List Char → Bool
  | [] => false
  | c :: rest => if c = '\t' then matchTabsNonSpace rest else !isPySpace c

/-- Translation of `_test_indentation` (src/action.py lines 330-332):
every line of the raw text must match the tab-indentation regular
expression. -/
def test_indentation (contents : String) : Bool :=
  (splitlines contents).all matchTabsNonSpace

/-- Stated from the words of claim C9 (for the refinement comparison):
no line has a space before its first non-whitespace character, i.e. all
leading whitespace on every line consists only of tab characters. -/
def claimIndentOk (contents : String) : Prop :=
  ∀ l ∈ splitlines contents, ∀ c ∈ l.takeWhile isPySpace, c = '\t'

instance (contents : String) : Decidable (claimIndentOk contents) :=
  inferInstanceAs (Decidable (∀ l ∈ splitlines contents, ∀ c ∈ l.takeWhile isPySpace, c = '\t'))

/-! ## Alphabetical order check -/

/-- The sort key produced by `str.lower` (ASCII model), as a character
list so that comparisons compute. -/
def lowerKey (s : String) : List Char := s.toList.map Char.toLower

/-- Comparison used by `sorted(..., key=str.lower)`: Python compares the
lowercased strings lexicographically by code point. -/
def lowerLe (a b : String) : Prop := lowerKey a ≤ lowerKey b

instance : DecidableRel lowerLe := fun a b =>
  inferInstanceAs (Decidable (lowerKey a ≤ lowerKey b))

instance : IsTotal String lowerLe := ⟨fun a b => le_total (lowerKey a) (lowerKey b)⟩

instance : IsTrans String lowerLe := ⟨fun _ _ _ h1 h2 => le_trans h1 h2⟩

/-- Model of Python `sorted(names, key=str.lower)`: a stable sort comparing
lowercased strings. -/
def pySortedByLower (l : List String) : List String :=
  List.insertionSort lowerLe l

/-- Translation of the order assertions of `_test_dependency_names`
(lines 276-281) and `_test_repository_package_names` (lines 323-328):
the collected name list must equal its own sorted permutation. -/
def sortedByLowerCheck (names : List String) : Bool :=
  decide (names = pySortedByLower names)

/-! ## Shard-letter check and include-filename pattern -/

/-- Outcome of one generated test method: a passing run, a reported
assertion failure, or an uncaught exception. -/
inductive TRes
  | pass
  | fail
  | crash
deriving DecidableEq, Repr

/-- One step of the shard loop (lines 317-321): `name[0].isdigit()` for the
`0-9` bucket, otherwise `name[0].lower() == letter`; `none` models the
IndexError raised on an empty name. -/
def shardNameOk (letter name : String) : Option Bool :=
  match name.toList with
  | [] => none
  | c :: _ => some (if letter = "0-9" then c.isDigit else String.mk [c.toLower] == letter)

/-- The shard loop of `_test_repository_package_names` (lines 317-321). -/
def shardLoop (letter : String) : List String → TRes
  | [] => .pass
  | n :: rest =>
    match shardNameOk letter n with
    | none => .crash
    | some true => shardLoop letter rest
    | some false => .fail

/-- The last path segment of an include path. -/
def pathBase (s : String) : List Char :=
  (s.toList.reverse.takeWhile (fun c => c ≠ '/')).reverse

/-- Model of the include-filename pattern used at the top of
`_test_dependency_names` (line 258) and `_test_repository_package_names`
(line 284): the basename must be `0-9.json`, a single lowercase letter plus
`.json`, or `dependencies.json`; the captured group is returned. -/
def parseIncludeLetter (incl : String) : Option String :=
  match pathBase incl with
  | ['0', '-', '9', '.', 'j', 's', 'o', 'n'] => some "0-9"
  | [c, '.', 'j', 's', 'o', 'n'] =>
    if 'a' ≤ c && c ≤ 'z' then some (String.mk [c]) else none
  | l => if l = "dependencies.json".toList then some "dependencies" else none

/-! ## Release model -/

/-- Value of the `tags` key: the key-type map allows `bool` or `str`. -/
inductive TagsV
  | bool (b : Bool)
  | str (s : String)
deriving DecidableEq, Repr

/-- Value of the `platforms` and `dependencies` keys: the key-type maps
allow a string or a list of strings. -/
inductive StrOrList
  | str (s : String)
  | list (l : List String)
deriving DecidableEq, Repr

/-- A release object: each field models the presence and value of the
corresponding JSON key.  The fields cover the union of the package and
dependency release key-type maps (lines 445-466); the per-mode known-key
restriction is enforced by `check_release_key_values`. -/
structure Release where
  base : Option String := none
  tags : Option TagsV := none
  branch : Option String := none
  sublime_text : Option String := none
  platforms : Option StrOrList := none
  dependencies : Option StrOrList := none
  version : Option String := none
  date : Option String := none
  url : Option String := none
  sha256 : Option String := none
deriving DecidableEq, Repr

/-- Model of `s.startswith(pre)`, computed on character lists. -/
def strStarts (s pre : String) : Bool := pre.toList.isPrefixOf s.toList

def fourDigits (l : List Char) : Bool :=
  l.length == 4 && l.all Char.isDigit

/-- Matcher for the anchored `sublime_text` pattern of line 568:
a star, a relation with a 4-digit version, or a 4-digit range.  The
relation patterns with `=` take priority exactly as the longest
alternative of the pattern does. -/
def sublimeTextRegex (s : String) : Bool :=
  match s.toList with
  | ['*'] => true
  | '<' :: '=' :: ds => fourDigits ds
  | '>' :: '=' :: ds => fourDigits ds
  | '<' :: ds => fourDigits ds
  | '>' :: ds => fourDigits ds
  | [a, b, c, d, ' ', '-', ' ', e, f, g, h] =>
    [a, b, c, d].all Char.isDigit && [e, f, g, h].all Char.isDigit
  | _ => false

/-- Matcher for the anchored date pattern of line 601. -/
def dateRegex (s : String) : Bool :=
  match s.toList with
  | [y1, y2, y3, y4, '-', m1, m2, '-', d1, d2, ' ', h1, h2, ':', n1, n2, ':', s1, s2] =>
    [y1, y2, y3, y4, m1, m2, d1, d2, h1, h2, n1, n2, s1, s2].all Char.isDigit
  | _ => false

def isHexDigit (c : Char) : Bool :=
  c.isDigit || ('a' ≤ c && c ≤ 'f') || ('A' ≤ c && c ≤ 'F')

/-- Matcher for the case-insensitive 64-hex-digit pattern of line 615. -/
def sha256Regex (s : String) : Bool :=
  s.toList.length = 64 && s.toList.all isHexDigit

/-- Matcher for the anchored platform pattern of line 580, whose language
is this finite set of strings. -/
def platformRegex (s : String) : Bool :=
  ["*", "osx", "linux", "windows",
   "osx-x32", "osx-x64", "osx-arm64",
   "linux-x32", "linux-x64", "linux-arm64",
   "windows-x32", "windows-x64", "windows-arm64"].contains s

/-- A character allowed inside one path segment of the base-url pattern. -/
def segChar (c : Char) : Bool :=
  c ≠ '/' && c ≠ '#' && c ≠ '?'

/-- The remainder after the host must be exactly two nonempty segments
separated by one slash. -/
def twoSegs (rest : List Char) : Bool :=
  let a := rest.takeWhile segChar
  match rest.drop a.length with
  | '/' :: b => !a.isEmpty && !b.isEmpty && b.all segChar
  | _ => false

/-- Matcher for the anchored `release_base_regex` of lines 219-225:
a bitbucket, github or gitlab repository root. -/
def release_base_regex (s : String) : Bool :=
  (strStarts s "https://bitbucket.org/" && twoSegs (s.toList.drop 22)) ||
  (strStarts s "https://github.com/" && twoSegs (s.toList.drop 19)) ||
  (strStarts s "https://gitlab.com/" && twoSegs (s.toList.drop 19))

/-- Value check for the `tags` key (lines 603-609): the value must be
truthy, and a string value must not be the literal string "true". -/
def tagsValueOk : TagsV → Bool
  | .bool b => b
  | .str s => !(s == "") && !(s == "true")

/-- A string value of `platforms` is treated as a one-element list
(lines 577-578). -/
def platformsList : StrOrList → List String
  | .str s => [s]
  | .list l => l

def allThreeArch (v : List String) (os : String) : Bool :=
  v.contains (os ++ "-x32") && v.contains (os ++ "-x64") && v.contains (os ++ "-arm64")

/-- Model of `{"osx", "windows", "linux"} == set(v)` (line 596). -/
def setEqOsxWinLinux (v : List String) : Bool :=
  v.all (fun s => s == "osx" || s == "windows" || s == "linux") &&
  v.contains "osx" && v.contains "windows" && v.contains "linux"

/-- The `platforms` branch of `check_release_key_values` (lines 576-598):
every entry matches the platform pattern, no duplicates, no full
architecture set for one OS, and not exactly the set of the three plain
OS names. -/
def platformsCheck (v : List String) : Bool :=
  v.all platformRegex &&
  v.dedup == v &&
  !(allThreeArch v "osx" || allThreeArch v "windows" || allThreeArch v "linux") &&
  !setEqOsxWinLinux v

/-- Applies a value check to an optional key. -/
def optCheck {α : Type} (o : Option α) (f : α → Bool) : Bool :=
  match o with
  | none => true
  | some v => f v

/-- Translation of `check_release_key_values` together with the key checks
of `enforce_key_types_map` (lines 543-625).  The first conjunct models the
unknown-key rejection: dependency releases know no `dependencies` or `date`
key, package releases know no `sha256` key; value types are correct by
construction of `Release`. -/
def check_release_key_values (r : Release) (dependency : Bool) : Bool :=
  (if dependency then r.dependencies.isNone && r.date.isNone else r.sha256.isNone) &&
  optCheck r.url (fun v =>
    if dependency then
      if r.sha256.isNone then strStarts v "https://" else strStarts v "http://"
    else strStarts v "http://" || strStarts v "https://") &&
  optCheck r.base release_base_regex &&
  optCheck r.sublime_text sublimeTextRegex &&
  optCheck r.platforms (fun p => platformsCheck (platformsList p)) &&
  optCheck r.date dateRegex &&
  optCheck r.tags tagsValueOk &&
  optCheck r.branch (fun v => !(v == "")) &&
  optCheck r.sha256 sha256Regex

/-- Translation of `_test_release` (src/action.py lines 468-541). -/
def test_release (r : Release) (dependency main_repo : Bool) : Bool :=
  (if main_repo then
     if dependency then
       (r.base.isSome && (r.tags.isSome || r.branch.isSome)) ||
       (r.sha256.isSome && (r.url.isNone || strStarts (r.url.getD "") "http://"))
     else
       (r.tags.isSome || r.branch.isSome) &&
       r.url.isNone && r.version.isNone && r.date.isNone
   else
     if r.tags.isNone && r.branch.isNone then
       if dependency then r.url.isSome && r.version.isSome
       else r.url.isSome && r.version.isSome && r.date.isSome
     else r.url.isNone && r.version.isNone && r.date.isNone) &&
  r.sublime_text.isSome &&
  (!dependency || r.platforms.isSome) &&
  !(r.tags.isSome && r.branch.isSome) &&
  check_release_key_values r dependency

/-- A package release of the non-main-index form whose url uses the
plain http scheme (used to settle claim C4). -/
def httpPkgRelease : Release :=
  { url := some "http://example.com/pkg.sublime-package",
    version := some "1.0.0",
    date := some "2020-01-01 00:00:00",
    sublime_text := some "*" }

/-- A minimal main-index package release (used to settle claim C2). -/
def mainIndexTagRelease : Release :=
  { tags := some (.bool true), sublime_text := some "*" }

/-- A release carrying both `tags` and `branch` (used to settle claim C2). -/
def tagsAndBranchRelease : Release :=
  { tags := some (.bool true), branch := some "main", sublime_text := some "*" }

/-! ## Package model -/

/-- The fields of a package object relevant to name derivation and the
global name registry. -/
structure Package where
  name : Option String
  details : Option String
  previous_names : List String
  releases : Option (List Release)
deriving DecidableEq, Repr

/-! ## Global name registry (CaseInsensitiveDict, lines 121-133) -/

/-- A CaseInsensitiveDict stores every string key lowercased
(ASCII model of `str.lower`). -/
def ciKey (s : String) : String := String.mk (s.toList.map Char.toLower)

def ciContains {α : Type} (d : List (String × α)) (k : String) : Bool :=
  d.any (fun p => p.1 == ciKey k)

def ciGet {α : Type} (d : List (String × α)) (k : String) : Option α :=
  (d.find? (fun p => p.1 == ciKey k)).map (fun p => p.2)

def ciSet {α : Type} (d : List (String × α)) (k : String) (v : α) : List (String × α) :=
  if ciContains d k then
    d.map (fun p => if p.1 == ciKey k then (p.1, v) else p)
  else d ++ [(ciKey k, v)]

/-- The three case-insensitive registries set up in `setUpClass`
(lines 155-160). -/
structure Registry where
  package_names : List (String × String)
  dependency_names : List (String × String)
  previous_package_names : List (String × (String × String × String))
deriving DecidableEq, Repr

def emptyRegistry : Registry := ⟨[], [], []⟩

/-- Disjointness of the package and dependency registries: the positive
part of the uniqueness invariant of claim C1. -/
def pdDisjoint (reg : Registry) : Prop :=
  ∀ p ∈ reg.package_names, ∀ q ∈ reg.dependency_names, p.1 ≠ q.1

/-! ## Entity-validator steps that consult and mutate the registry -/

/-- The dependency loop of `_test_dependency_names` (lines 262-274).
The registry returned reflects the mutations performed before the first
reported failure; note that the source registers the name into
`dependency_names` before checking it against `package_names`. -/
def depNamesLoop (incl : String) :
    List Package → Registry → List String → Registry × List String × TRes
  | [], reg, acc => (reg, acc.reverse, .pass)
  | p :: rest, reg, acc =>
    match get_package_name p.name p.details with
    | none => (reg, acc.reverse, .crash)
    | some name =>
      if ciContains reg.dependency_names name then (reg, acc.reverse, .fail)
      else
        let reg2 : Registry := { reg with dependency_names := ciSet reg.dependency_names name incl }
        if ciContains reg2.package_names name then (reg2, acc.reverse, .fail)
        else depNamesLoop incl rest reg2 (name :: acc)

/-- Translation of `_test_dependency_names` (lines 257-281): the filename
pattern check, the uniqueness loop, then the order assertion. -/
def test_dependency_names (incl : String) (deps : List Package) (reg : Registry) :
    Registry × TRes :=
  match parseIncludeLetter incl with
  | none => (reg, .fail)
  | some _ =>
    match depNamesLoop incl deps reg [] with
    | (reg2, _, .crash) => (reg2, .crash)
    | (reg2, _, .fail) => (reg2, .fail)
    | (reg2, names, .pass) =>
      (reg2, if sortedByLowerCheck names then .pass else .fail)

/-- Model of `pname in previous_package_names and
pname == previous_package_names[pname][0]` (lines 297-299): the clash with
a previous name is only reported when the casing matches exactly. -/
def prevMatchesCase (reg : Registry) (pname : String) : Bool :=
  match ciGet reg.previous_package_names pname with
  | some t => pname == t.1
  | none => false

/-- The package loop of `_test_repository_package_names` (lines 289-314). -/
def pkgNamesLoop (incl : String) :
    List Package → Registry → List String → Registry × List String × TRes
  | [], reg, acc => (reg, acc.reverse, .pass)
  | p :: rest, reg, acc =>
    match get_package_name p.name p.details with
    | none => (reg, acc.reverse, .crash)
    | some pname =>
      if ciContains reg.package_names pname then (reg, acc.reverse, .fail)
      else if ciContains reg.previous_package_names pname && prevMatchesCase reg pname then
        (reg, acc.reverse, .fail)
      else if ciContains reg.dependency_names pname then (reg, acc.reverse, .fail)
      else
        pkgNamesLoop incl rest
          { reg with package_names := ciSet reg.package_names pname incl } (pname :: acc)

/-- Translation of `_test_repository_package_names` (lines 283-328):
filename pattern, uniqueness loop, shard check, order assertion. -/
def test_repository_package_names (incl : String) (pkgs : List Package) (reg : Registry) :
    Registry × TRes :=
  match parseIncludeLetter incl with
  | none => (reg, .fail)
  | some letter =>
    match pkgNamesLoop incl pkgs reg [] with
    | (reg2, _, .crash) => (reg2, .crash)
    | (reg2, _, .fail) => (reg2, .fail)
    | (reg2, names, .pass) =>
      match shardLoop letter names with
      | .crash => (reg2, .crash)
      | .fail => (reg2, .fail)
      | .pass => (reg2, if sortedByLowerCheck names then .pass else .fail)

/-- The `previous_names` loop of `_test_package` (lines 379-397). -/
def prevNamesLoop (incl pkgname : String) : List String → Registry → Registry × TRes
  | [], reg => (reg, .pass)
  | pn :: rest, reg =>
    if ciContains reg.previous_package_names pn then (reg, .fail)
    else if ciContains reg.package_names pn then (reg, .fail)
    else
      prevNamesLoop incl pkgname rest
        { reg with previous_package_names := ciSet reg.previous_package_names pn (pn, incl, pkgname) }

/-- The registry-relevant portion of `_test_package` (lines 349-350 and
379-397): the name derivation followed by the `previous_names` loop.  This
loop checks `previous_package_names` and `package_names` but never
`dependency_names`. -/
def test_package_previous_names (incl : String) (p : Package) (reg : Registry) :
    Registry × TRes :=
  match get_package_name p.name p.details with
  | none => (reg, .crash)
  | some pkgname => prevNamesLoop incl pkgname p.previous_names reg

/-- Concrete two-step run used to settle claim C1: a package with previous
name "Foo", then a dependency named "Foo". -/
def c1PrevStep : Registry × TRes :=
  test_package_previous_names "a.json" ⟨some "APkg", none, ["Foo"], none⟩ emptyRegistry

def c1DepStep : Registry × TRes :=
  test_dependency_names "dependencies.json" [⟨some "Foo", none, [], none⟩] c1PrevStep.1

/-! ## Python float model for schema-version triage -/

/-- A Python float value: a finite value is modelled exactly as the
unreduced fraction `num / den` with `den` a positive power of ten, which
is exact for every decimal literal. -/
inductive PyNum
  | fin (num : Int) (den : Nat)
  | inf
  | ninf
  | nan
deriving DecidableEq, Repr

def digitsVal (l : List Char) : Nat :=
  l.foldl (fun a c => a * 10 + (c.toNat - '0'.toNat)) 0

/-- Exponent part of a float literal: an optional sign and digits. -/
def parseExpPart : List Char → Option Int
  | '+' :: ds => if !ds.isEmpty && ds.all Char.isDigit then some (digitsVal ds) else none
  | '-' :: ds => if !ds.isEmpty && ds.all Char.isDigit then some (-(digitsVal ds : Int)) else none
  | ds => if !ds.isEmpty && ds.all Char.isDigit then some (digitsVal ds) else none

/-- The exact value of integer digits, fraction digits and a power-of-ten
exponent, as an unreduced fraction. -/
def mantissaNum (ip fp : List Char) (e : Int) : PyNum :=
  let D : Nat := digitsVal ip * 10 ^ fp.length + digitsVal fp
  match e with
  | .ofNat k => .fin (D * 10 ^ k : Nat) (10 ^ fp.length)
  | .negSucc k => .fin (D : Nat) (10 ^ fp.length * 10 ^ (k + 1))

/-- Unsigned decimal float literal: digits, an optional point with digits
(at least one digit overall), and an optional exponent. -/
def parseMantissaExp (l : List Char) : Option PyNum :=
  let ip := l.takeWhile Char.isDigit
  match l.drop ip.length with
  | [] => if ip.isEmpty then none else some (mantissaNum ip [] 0)
  | '.' :: r2 =>
    let fp := r2.takeWhile Char.isDigit
    if ip.isEmpty && fp.isEmpty then none
    else
      match r2.drop fp.length with
      | [] => some (mantissaNum ip fp 0)
      | 'e' :: re => (parseExpPart re).map (mantissaNum ip fp)
      | 'E' :: re => (parseExpPart re).map (mantissaNum ip fp)
      | _ => none
  | 'e' :: re => if ip.isEmpty then none else (parseExpPart re).map (mantissaNum ip [])
  | 'E' :: re => if ip.isEmpty then none else (parseExpPart re).map (mantissaNum ip [])
  | _ => none

/-- Unsigned part of Python `float(s)` including the named special values. -/
def parseUnsignedPy (l : List Char) : Option PyNum :=
  let low := l.map Char.toLower
  if low == "inf".toList || low == "infinity".toList then some .inf
  else if low == "nan".toList then some .nan
  else parseMantissaExp l

def negPyNum : PyNum → PyNum
  | .fin n d => .fin (-n) d
  | .inf => .ninf
  | .ninf => .inf
  | .nan => .nan

/-- Strips surrounding whitespace the way Python `float` does
(ASCII model). -/
def pyStripWs (l : List Char) : List Char :=
  ((l.dropWhile isPySpace).reverse.dropWhile isPySpace).reverse

/-- Model of Python `float(s)` on strings (ASCII whitespace, no digit
underscores): `none` models the `ValueError` raised on a non-numeric
string. -/
def parsePyFloat (s : String) : Option PyNum :=
  match pyStripWs s.toList with
  | '+' :: r => parseUnsignedPy r
  | '-' :: r => (parseUnsignedPy r).map negPyNum
  | r => parseUnsignedPy r

/-- Numeric equality of the unreduced fraction `n / d` with `p / q`. -/
def ratEq (n : Int) (d : Nat) (p : Int) (q : Nat) : Bool :=
  n * q == p * d

/-- Model of `float(schema) in (1.0, 1.1, 1.2, 2.0)` (line 705): numeric
equality with one of the four recognized pre-3.0.0 versions. -/
def pyNumInAllowed : PyNum → Bool
  | .fin n d => ratEq n d 1 1 || ratEq n d 11 10 || ratEq n d 12 10 || ratEq n d 2 1
  | _ => false

/-! ## Document resolver (`_include_tests`, lines 647-752) -/

/-- The deny-list `BAD_REPOS` of lines 30-33. -/
def BAD_REPOS : List String :=
  ["https://packages.monokai.pro/packages.json",
   "https://raw.githubusercontent.com/blake-regalia/linked-data.syntaxes/master/channels/sublime/package-control.json"]

/-- A parsed repository document: the keys of the JSON object that
`_include_tests` inspects. -/
structure RDoc where
  schema_version : Option String
  packages : Option (List Package)
  includes : Option (List String)
deriving DecidableEq, Repr

/-- Outcome of fetching, decoding and parsing one path, produced by the
external content source (download or file read plus `json.loads`):
a fetch or decode error, empty content, a JSON parse error, or a parsed
document. -/
inductive DocOutcome
  | fetchErr
  | empty
  | parseErr
  | doc (d : RDoc)
deriving DecidableEq, Repr

/-- Kind of a deferred failing check produced via `cls._fail`. -/
inductive FailKind
  | fetch
  | emptyDoc
  | parse
  | noSchemaVersion
  | badSchemaVersion
deriving DecidableEq, Repr

/-- One `(method, args)` tuple yielded by `_include_tests`. -/
inductive YieldItem
  | failCheck (kind : FailKind) (path : String)
  | repositoryKeys (path : String)
  | packageTest (path : String) (p : Package)
  | releaseTest (label : String) (r : Release) (dependency mainRepo : Bool)
deriving DecidableEq, Repr

/-- The release test tuples yielded for one package (lines 736-748). -/
def releaseItems (label : String) (rs : List Release) : List YieldItem :=
  rs.map (fun r => .releaseTest label r false false)

/-- The tuples yielded for the packages of a document (lines 730-748);
`none` models the crash of `get_package_name` on a package with neither a
truthy name nor details. -/
def packagesItems (path : String) : List Package → Option (List YieldItem)
  | [] => some []
  | p :: rest =>
    match get_package_name p.name p.details with
    | none => none
    | some pname =>
      match packagesItems path rest with
      | none => none
      | some tail =>
        some (.packageTest path p ::
          (match p.releases with
           | some rs => releaseItems (pname ++ " (" ++ path ++ ")") rs
           | none => []) ++ tail)

/-- Processing of a single fetched document (lines 665-748): the yielded
tuples, the schema versions counted as skipped, and the include paths to
recurse into.  `none` models an uncaught exception: in particular the
`ValueError` raised by `float(schema)` on a non-numeric schema version at
line 705, which no handler catches. -/
def processDoc (path : String) (o : DocOutcome) :
    Option (List YieldItem × List String × List String) :=
  match o with
  | .fetchErr => some ([.failCheck .fetch path], [], [])
  | .empty => some ([.failCheck .emptyDoc path], [], [])
  | .parseErr => some ([.failCheck .parse path], [], [])
  | .doc d =>
    match d.schema_version with
    | none => some ([.failCheck .noSchemaVersion path], [], [])
    | some schema =>
      let body : Option (List YieldItem × List String × List String) :=
        if path ∈ BAD_REPOS then some ([], [], [])
        else if schema ≠ "3.0.0" then some ([], [schema], [])
        else
          match (match d.packages with
                 | none => some []
                 | some ps => packagesItems path ps) with
          | none => none
          | some pkgItems =>
            some (.repositoryKeys path :: pkgItems, [], d.includes.getD [])
      if schema = "3.0.0" then body
      else
        match parsePyFloat schema with
        | none => none
        | some n =>
          if pyNumInAllowed n then body
          else some ([.failCheck .badSchemaVersion path], [], [])

/-- Aggregate result of the recursive traversal: either the ordered
sequence of yielded tuples together with the multiset of skipped schema
versions, or an uncaught exception which aborts the whole generation. -/
inductive IncludeResult
  | crash
  | ok (items : List YieldItem) (skipped : List String)
deriving DecidableEq, Repr

/-- Depth-first worker over a stack of pending paths, fuelled to bound the
a priori unbounded include graph (exhausted fuel models Python's
RecursionError).  Children of a document are pushed in front of its
pending siblings, reproducing the `yield from` order of line 752. -/
def includeTestsAux (uj : String → String → String) (env : String → DocOutcome) :
    Nat → List String → IncludeResult
  | _, [] => .ok [] []
  | 0, _ :: _ => .crash
  | Nat.succ fuel, path :: stack =>
    match processDoc path (env path) with
    | none => .crash
    | some (items, skips, children) =>
      match includeTestsAux uj env fuel (children.map (uj path) ++ stack) with
      | .crash => .crash
      | .ok restItems restSkips => .ok (items ++ restItems) (skips ++ restSkips)

/-- Translation of `_include_tests` (lines 647-752): resolve one root path
against an external content source `env` and an external url-join
function `uj`. -/
def include_tests (uj : String → String → String) (env : String → DocOutcome)
    (fuel : Nat) (path : String) : IncludeResult :=
  includeTestsAux uj env fuel [path]

/-- Trivial url-join placeholder used in closed evaluations whose
documents have no includes. -/
def idJoin (_base rel : String) : String := rel

/-- Path of the first entry of the deny-list. -/
def monokaiPath : String := "https://packages.monokai.pro/packages.json"

/-- A content source serving a schema-2.0 document at the deny-listed path
(used to settle claim C5). -/
def envSkipBadRepo : String → DocOutcome := fun p =>
  if p = monokaiPath then .doc ⟨some "2.0", none, none⟩ else .fetchErr

/-- A content source serving a schema-2.0 document at an ordinary path
(used for the claim C5 witness). -/
def envSkipNormal : String → DocOutcome := fun p =>
  if p = "r.json" then .doc ⟨some "2.0", none, none⟩ else .fetchErr

/-- A content source serving a document whose schema version is the
non-numeric string "beta" (used to settle claim C3). -/
def envBetaSchema : String → DocOutcome := fun _ =>
  .doc ⟨some "beta", none, none⟩

/-! ## Helper lemmas -/

theorem takeWhile_append_single_false {p : Char → Bool} {x : Char} (hx : p x = false) :
    ∀ a : List Char, List.takeWhile p (a ++ [x]) = List.takeWhile p a := by
  intro a
  induction a with
  | nil => simp [List.takeWhile, hx]
  | cons y ys ih =>
    by_cases hy : p y = true
    · simp only [List.cons_append, List.takeWhile_cons, hy, ih]
    · simp only [List.cons_append, List.takeWhile_cons, if_neg hy]

/-- Removing leading slashes does not change the segment after the last
slash. -/
theorem afterLastSlash_stripLeading (l : List Char) :
    afterLastSlash (stripLeadingSlashes l) = afterLastSlash l := by
  induction l with
  | nil => rfl
  | cons c t ih =>
    by_cases hc : c = '/'
    · subst hc
      have h1 : stripLeadingSlashes ('/' :: t) = stripLeadingSlashes t := by
        simp [stripLeadingSlashes, List.dropWhile_cons]
      rw [h1, ih]
      unfold afterLastSlash
      rw [List.reverse_cons, takeWhile_append_single_false (by simp)]
    · have h1 : stripLeadingSlashes (c :: t) = c :: t := by
        simp [stripLeadingSlashes, List.dropWhile_cons, hc]
      rw [h1]

/-- A single regular-expression line check succeeds exactly on lines made
of tabs followed by a non-whitespace character. -/
theorem matchTabsNonSpace_iff (l : List Char) :
    matchTabsNonSpace l = true ↔
      ∃ n c r, l = List.replicate n '\t' ++ c :: r ∧ isPySpace c = false := by
  induction l with
  | nil =>
    constructor
    · intro h; exact absurd h (by simp [matchTabsNonSpace])
    · rintro ⟨n, c, r, h, -⟩
      exact absurd h.symm (by simp)
  | cons a t ih =>
    by_cases ha : a = '\t'
    · subst ha
      rw [show matchTabsNonSpace ('\t' :: t) = matchTabsNonSpace t from by
        simp [matchTabsNonSpace]]
      rw [ih]
      constructor
      · rintro ⟨n, c, r, hl, hc⟩
        exact ⟨n + 1, c, r, by simp [List.replicate_succ, hl], hc⟩
      · rintro ⟨n, c, r, hl, hc⟩
        cases n with
        | zero =>
          simp only [List.replicate, List.nil_append, List.cons.injEq] at hl
          rw [← hl.1] at hc
          exact absurd hc (by simp [isPySpace])
        | succ m =>
          simp only [List.replicate_succ, List.cons_append, List.cons.injEq, true_and] at hl
          exact ⟨m, c, r, hl, hc⟩
    · rw [show matchTabsNonSpace (a :: t) = !isPySpace a from by
        simp [matchTabsNonSpace, ha]]
      constructor
      · intro h
        exact ⟨0, a, t, by simp, by simpa using h⟩
      · rintro ⟨n, c, r, hl, hc⟩
        cases n with
        | zero =>
          simp only [List.replicate, List.nil_append, List.cons.injEq] at hl
          rw [hl.1]
          simpa using hc
        | succ m =>
          simp only [List.replicate_succ, List.cons_append, List.cons.injEq] at hl
          exact absurd hl.1 ha

/-! ## Claim theorems -/

/-- C10: the derived entity name equals the `name` field whenever that
field is present and truthy (a non-empty string); otherwise it equals the
last slash-separated segment of the `details` value after stripping
trailing slashes; and when `name` is absent or empty and `details` is
absent, name derivation raises an unhandled exception (modelled as `none`)
rather than producing a reported failing check. -/
theorem c10_package_name_derivation (name details : Option String) :
    (∀ s, name = some s → s ≠ "" → get_package_name name details = some s) ∧
    ((name = none ∨ name = some "") →
      ∀ d, details = some d → get_package_name name details = some (claimFallbackName d)) ∧
    ((name = none ∨ name = some "") → details = none → get_package_name name details = none) := by
  refine ⟨?_, ?_, ?_⟩
  · intro s hn hs
    subst hn
    simp [get_package_name, truthyStr, hs]
  · intro hn d hd
    subst hd
    have ht : truthyStr name = none := by
      rcases hn with h | h <;> subst h <;> simp [truthyStr]
    simp only [get_package_name, ht, claimFallbackName, pyStripSlashes, Option.some.injEq]
    rw [afterLastSlash_stripLeading]
  · intro hn hd
    subst hd
    have ht : truthyStr name = none := by
      rcases hn with h | h <;> subst h <;> simp [truthyStr]
    simp [get_package_name, ht]

theorem c10_package_name_witness :
    get_package_name (some "Package Control") (some "https://github.com/u/r") =
        some "Package Control" ∧
    get_package_name none (some "https://github.com/u/repo/") =
        some (claimFallbackName "https://github.com/u/repo/") ∧
    claimFallbackName "https://github.com/u/repo/" = "repo" ∧
    get_package_name (some "") none = none := by
  refine ⟨?_, ?_, by decide, ?_⟩
  · exact (c10_package_name_derivation (some "Package Control")
      (some "https://github.com/u/r")).1 _ rfl (by decide)
  · exact (c10_package_name_derivation none
      (some "https://github.com/u/repo/")).2.1 (Or.inl rfl) _ rfl
  · exact (c10_package_name_derivation (some "") none).2.2 (Or.inr rfl) rfl

/-- C9 counterexample: the file "a\n\nb" has no space before the first
non-whitespace character of any line (the middle line is empty, so its
leading-whitespace run is empty), yet the indentation check fails, because
the line pattern also demands a non-whitespace character on every line. -/
theorem c9_empty_line_fails :
    claimIndentOk "a\n\nb" ∧ test_indentation "a\n\nb" = false := by
  exact ⟨by decide, by decide⟩

/-- C9 (amended): the indentation check passes exactly when every line
consists of zero or more tab characters followed by a non-whitespace
character (and therefore every line must contain a non-whitespace
character: empty or whitespace-only lines fail). -/
theorem c9_indentation_amended (contents : String) :
    test_indentation contents = true ↔
      ∀ l ∈ splitlines contents,
        ∃ n c r, l = List.replicate n '\t' ++ c :: r ∧ isPySpace c = false := by
  rw [test_indentation, List.all_eq_true]
  constructor
  · intro h l hl
    exact (matchTabsNonSpace_iff l).mp (h l hl)
  · intro h l hl
    exact (matchTabsNonSpace_iff l).mpr (h l hl)

theorem c9_indentation_witness : test_indentation "\ta\n\tb" = true := by
  refine (c9_indentation_amended "\ta\n\tb").mpr ?_
  intro l hl
  have hs : splitlines "\ta\n\tb" = [['\t', 'a'], ['\t', 'b']] := by decide
  rw [hs] at hl
  simp only [List.mem_cons, List.not_mem_nil, or_false] at hl
  rcases hl with rfl | rfl
  · exact ⟨1, 'a', [], by decide, by decide⟩
  · exact ⟨1, 'b', [], by decide, by decide⟩

/-- C7: the order check on the name list of one include file passes
exactly when that list equals its own case-insensitive-alphabetically-
sorted permutation, i.e. exactly when the list is already sorted under
the case-insensitive comparison; any other ordering fails. -/
theorem c7_sorted_check_iff (names : List String) :
    sortedByLowerCheck names = true ↔ List.Sorted lowerLe names := by
  rw [sortedByLowerCheck, decide_eq_true_eq]
  simp only [pySortedByLower]
  constructor
  · intro h
    rw [h]
    exact List.sorted_insertionSort lowerLe names
  · intro h
    exact (List.Sorted.insertionSort_eq h).symm

theorem c7_sorted_check_witness :
    sortedByLowerCheck ["apple", "Banana"] = true :=
  (c7_sorted_check_iff ["apple", "Banana"]).mpr (by decide)

/-- Every name a passing shard loop visited satisfies its per-name check. -/
theorem shardLoop_pass_forall (letter : String) :
    ∀ names, shardLoop letter names = .pass →
      ∀ n ∈ names, shardNameOk letter n = some true := by
  intro names
  induction names with
  | nil =>
    intro _ n hn
    exact absurd hn (List.not_mem_nil n)
  | cons m rest ih =>
    intro hp n hn
    rw [shardLoop] at hp
    cases hm : shardNameOk letter m with
    | none => rw [hm] at hp; exact absurd hp (by simp)
    | some b =>
      cases b with
      | false => rw [hm] at hp; exact absurd hp (by simp)
      | true =>
        rw [hm] at hp
        rcases List.mem_cons.mp hn with rfl | hn2
        · exact hm
        · exact ih hp n hn2

/-- C6: the shard check passes only if, for the `0-9` designation, every
package name starts with a digit, and for any other designation (in
particular a single letter), every name's first character lowercased
equals the designation; the name "Zoo" fails in the file designated `a`
and passes in the file designated `z`. -/
theorem c6_shard_letter (letter : String) (names : List String)
    (hp : shardLoop letter names = .pass) :
    (letter = "0-9" → ∀ n ∈ names, ∃ c r, n.toList = c :: r ∧ c.isDigit = true) ∧
    (letter ≠ "0-9" → ∀ n ∈ names, ∃ c r, n.toList = c :: r ∧ String.mk [c.toLower] = letter) ∧
    shardLoop "a" ["Zoo"] = .fail ∧ shardLoop "z" ["Zoo"] = .pass := by
  refine ⟨?_, ?_, by decide, by decide⟩
  · intro h09 n hn
    have h := shardLoop_pass_forall letter names hp n hn
    simp only [shardNameOk] at h
    cases ht : n.toList with
    | nil => rw [ht] at h; exact absurd h (by simp)
    | cons c r =>
      rw [ht] at h
      refine ⟨c, r, rfl, ?_⟩
      have h2 : some (if letter = "0-9" then c.isDigit
          else String.mk [c.toLower] == letter) = some true := h
      rw [if_pos h09] at h2
      simpa using h2
  · intro hne n hn
    have h := shardLoop_pass_forall letter names hp n hn
    simp only [shardNameOk] at h
    cases ht : n.toList with
    | nil => rw [ht] at h; exact absurd h (by simp)
    | cons c r =>
      rw [ht] at h
      refine ⟨c, r, rfl, ?_⟩
      have h2 : some (if letter = "0-9" then c.isDigit
          else String.mk [c.toLower] == letter) = some true := h
      rw [if_neg hne] at h2
      simpa using h2

theorem c6_shard_letter_witness :
    ∃ c r, "Zoo".toList = c :: r ∧ String.mk [c.toLower] = "z" :=
  (c6_shard_letter "z" ["Zoo"] (by decide)).2.1 (by decide) "Zoo" (by decide)

/-- C2: a package release validated in main-index mode passes only if
exactly one of `tags` and `branch` is present and none of `url`,
`version`, `date` is present; and in every mode, a release carrying both
`tags` and `branch` fails. -/
theorem c2_main_repo_release_shape :
    (∀ r : Release, test_release r false true = true →
      ((r.tags.isSome = true ∧ r.branch = none) ∨
       (r.tags = none ∧ r.branch.isSome = true)) ∧
      r.url = none ∧ r.version = none ∧ r.date = none) ∧
    (∀ (r : Release) (dep main : Bool),
      r.tags.isSome = true → r.branch.isSome = true →
      test_release r dep main = false) := by
  constructor
  · intro r h
    rcases r with ⟨base, tags, branch, st, plat, deps, ver, date, url, sha⟩
    cases tags <;> cases branch <;> cases url <;> cases ver <;> cases date <;>
      simp_all [test_release]
  · intro r dep main h1 h2
    simp [test_release, h1, h2]

theorem c2_release_witness :
    test_release tagsAndBranchRelease true false = false ∧
    mainIndexTagRelease.url = none := by
  constructor
  · exact c2_main_repo_release_shape.2 tagsAndBranchRelease true false
      (by decide) (by decide)
  · exact (c2_main_repo_release_shape.1 mainIndexTagRelease (by decide)).2.1

/-- C4 counterexample: a package release (non-main-index form) whose url
starts with "http://" and not with "https://" passes the whole release
check, while the claim says any package release url not starting with
"https://" is reported as a failure. -/
theorem c4_package_http_url_passes :
    httpPkgRelease.url = some "http://example.com/pkg.sublime-package" ∧
    strStarts "http://example.com/pkg.sublime-package" "https://" = false ∧
    test_release httpPkgRelease false false = true := by
  exact ⟨rfl, by decide, by decide⟩

/-- C4 (amended): for every release containing a url key, a dependency
release requires the "https://" scheme unless `sha256` is present, in
which case it requires "http://"; a package release accepts either
"http://" or "https://". -/
theorem c4_url_scheme_amended (r : Release) (dep : Bool) (u : String)
    (hu : r.url = some u) (h : check_release_key_values r dep = true) :
    (dep = true → r.sha256 = none → strStarts u "https://" = true) ∧
    (dep = true → r.sha256 ≠ none → strStarts u "http://" = true) ∧
    (dep = false → (strStarts u "http://" || strStarts u "https://") = true) := by
  simp only [check_release_key_values, Bool.and_eq_true] at h
  have hurl := h.1.1.1.1.1.1.1.2
  rw [hu] at hurl
  simp only [optCheck] at hurl
  refine ⟨?_, ?_, ?_⟩
  · intro hdep hsha
    rw [hdep] at hurl
    simp only [if_true] at hurl
    simpa [hsha] using hurl
  · intro hdep hsha
    rw [hdep] at hurl
    have hn : r.sha256.isNone = false := by
      cases hs : r.sha256 with
      | none => exact absurd hs hsha
      | some v => rfl
    simpa [hn] using hurl
  · intro hdep
    rw [hdep] at hurl
    simpa using hurl

theorem c4_url_scheme_witness :
    (strStarts "http://example.com/pkg.sublime-package" "http://" ||
     strStarts "http://example.com/pkg.sublime-package" "https://") = true :=
  (c4_url_scheme_amended httpPkgRelease false
    "http://example.com/pkg.sublime-package" rfl (by decide)).2.2 rfl

/-- List membership gives a true `contains`. -/
theorem containsOfMem {a : String} {l : List String} (h : a ∈ l) :
    l.contains a = true := by
  simpa using h

/-- C8: a release platforms list passes only if every entry matches the
platform pattern; duplicate entries fail; a list whose entries form
exactly the set of the three plain OS names fails; a list containing all
three architectures of one OS fails; and the list of the two modern osx
architectures passes. -/
theorem c8_platforms_rules :
    (∀ v : List String, platformsCheck v = true → ∀ p ∈ v, platformRegex p = true) ∧
    (∀ v : List String, ¬ v.Nodup → platformsCheck v = false) ∧
    (∀ v : List String,
      ("osx" ∈ v ∧ "windows" ∈ v ∧ "linux" ∈ v ∧
        ∀ p ∈ v, p = "osx" ∨ p = "windows" ∨ p = "linux") →
      platformsCheck v = false) ∧
    (∀ (v : List String) (os : String), (os = "osx" ∨ os = "linux" ∨ os = "windows") →
      (os ++ "-x32") ∈ v → (os ++ "-x64") ∈ v → (os ++ "-arm64") ∈ v →
      platformsCheck v = false) ∧
    platformsCheck ["osx-x64", "osx-arm64"] = true := by
  refine ⟨?_, ?_, ?_, ?_, by decide⟩
  · intro v h p hp
    simp only [platformsCheck, Bool.and_eq_true] at h
    exact List.all_eq_true.mp h.1.1.1 p hp
  · intro v hnd
    have hd : (v.dedup == v) = false := by
      rw [beq_eq_false_iff_ne]
      intro he
      exact hnd (he ▸ List.nodup_dedup v)
    simp [platformsCheck, hd]
  · rintro v ⟨h1, h2, h3, h4⟩
    have hset : setEqOsxWinLinux v = true := by
      simp only [setEqOsxWinLinux, Bool.and_eq_true]
      refine ⟨⟨⟨?_, containsOfMem h1⟩, containsOfMem h2⟩, containsOfMem h3⟩
      rw [List.all_eq_true]
      intro p hp
      rcases h4 p hp with h | h | h <;> simp [h]
    simp [platformsCheck, hset]
  · intro v os hos h32 h64 harm
    have hc32 := containsOfMem h32
    have hc64 := containsOfMem h64
    have hcarm := containsOfMem harm
    have h3 : (allThreeArch v "osx" || allThreeArch v "windows" ||
        allThreeArch v "linux") = true := by
      rcases hos with rfl | rfl | rfl <;>
        simp only [allThreeArch, hc32, hc64, hcarm, Bool.and_self, Bool.and_true,
          Bool.true_and, Bool.true_or, Bool.or_true]
    simp [platformsCheck, h3]

theorem c8_platforms_witness :
    platformsCheck ["osx", "osx"] = false ∧
    platformsCheck ["osx", "windows", "linux"] = false := by
  constructor
  · exact c8_platforms_rules.2.1 ["osx", "osx"] (by decide)
  · exact c8_platforms_rules.2.2.1 ["osx", "windows", "linux"]
      ⟨by decide, by decide, by decide, by decide⟩

/-! ## Registry lemmas for claim C1 -/

theorem ciContains_eq_false {α : Type} {d : List (String × α)} {k : String}
    (h : ciContains d k = false) : ∀ p ∈ d, p.1 ≠ ciKey k := by
  intro p hp he
  rw [ciContains, List.any_eq_false] at h
  have h2 := h p hp
  simp [he] at h2

theorem ciSet_fresh {α : Type} {d : List (String × α)} {k : String}
    (h : ciContains d k = false) (v : α) :
    ciSet d k v = d ++ [(ciKey k, v)] := by
  rw [ciSet, if_neg]
  simp [h]

/-- Registering a fresh dependency name that does not occur among the
package names preserves disjointness of the two registries. -/
theorem pdDisjoint_addDep {reg : Registry} {nm incl : String}
    (hreg : pdDisjoint reg)
    (hdep : ciContains reg.dependency_names nm = false)
    (hpkg : ciContains reg.package_names nm = false) :
    pdDisjoint { reg with dependency_names := ciSet reg.dependency_names nm incl } := by
  intro p hp q hq
  have hp' : p ∈ reg.package_names := hp
  have hq' : q ∈ reg.dependency_names ++ [(ciKey nm, incl)] := by
    rw [← ciSet_fresh hdep incl]
    exact hq
  rcases List.mem_append.mp hq' with hq2 | hq2
  · exact hreg p hp' q hq2
  · have he : q = (ciKey nm, incl) := by simpa using hq2
    rw [he]
    exact ciContains_eq_false hpkg p hp'

/-- Registering a fresh package name that does not occur among the
dependency names preserves disjointness of the two registries. -/
theorem pdDisjoint_addPkg {reg : Registry} {nm incl : String}
    (hreg : pdDisjoint reg)
    (hpkg : ciContains reg.package_names nm = false)
    (hdep : ciContains reg.dependency_names nm = false) :
    pdDisjoint { reg with package_names := ciSet reg.package_names nm incl } := by
  intro p hp q hq
  have hq' : q ∈ reg.dependency_names := hq
  have hp' : p ∈ reg.package_names ++ [(ciKey nm, incl)] := by
    rw [← ciSet_fresh hpkg incl]
    exact hp
  rcases List.mem_append.mp hp' with hp2 | hp2
  · exact hreg p hp2 q hq'
  · have he : p = (ciKey nm, incl) := by simpa using hp2
    rw [he]
    exact (ciContains_eq_false hdep q hq').symm

/-- Updating the previous-name registry does not affect disjointness of
the package and dependency registries. -/
theorem pdDisjoint_prevUpdate {reg : Registry}
    {x : List (String × (String × String × String))} (hreg : pdDisjoint reg) :
    pdDisjoint { reg with previous_package_names := x } :=
  fun p hp q hq => hreg p hp q hq

theorem depNamesLoop_disjoint (incl : String) :
    ∀ (ps : List Package) (reg : Registry) (acc : List String),
      pdDisjoint reg →
      (depNamesLoop incl ps reg acc).2.2 = .pass →
      pdDisjoint (depNamesLoop incl ps reg acc).1 := by
  intro ps
  induction ps with
  | nil =>
    intro reg acc hreg _
    simpa [depNamesLoop] using hreg
  | cons p rest ih =>
    intro reg acc hreg hpass
    cases hname : get_package_name p.name p.details with
    | none =>
      simp [depNamesLoop, hname] at hpass
    | some nm =>
      cases h1 : ciContains reg.dependency_names nm with
      | true =>
        simp [depNamesLoop, hname, h1] at hpass
      | false =>
        cases h2 : ciContains reg.package_names nm with
        | true =>
          simp [depNamesLoop, hname, h1, h2] at hpass
        | false =>
          have hreg2 := @pdDisjoint_addDep _ _ incl hreg h1 h2
          simp only [depNamesLoop, hname, h1, h2] at hpass ⊢
          simp only [Bool.false_eq_true, if_false] at hpass ⊢
          exact ih _ (nm :: acc) hreg2 hpass

theorem pkgNamesLoop_disjoint (incl : String) :
    ∀ (ps : List Package) (reg : Registry) (acc : List String),
      pdDisjoint reg →
      (pkgNamesLoop incl ps reg acc).2.2 = .pass →
      pdDisjoint (pkgNamesLoop incl ps reg acc).1 := by
  intro ps
  induction ps with
  | nil =>
    intro reg acc hreg _
    simpa [pkgNamesLoop] using hreg
  | cons p rest ih =>
    intro reg acc hreg hpass
    cases hname : get_package_name p.name p.details with
    | none =>
      simp [pkgNamesLoop, hname] at hpass
    | some nm =>
      cases h1 : ciContains reg.package_names nm with
      | true =>
        simp [pkgNamesLoop, hname, h1] at hpass
      | false =>
        cases h2 : ciContains reg.previous_package_names nm && prevMatchesCase reg nm with
        | true =>
          simp [pkgNamesLoop, hname, h1, h2] at hpass
        | false =>
          cases h3 : ciContains reg.dependency_names nm with
          | true =>
            simp [pkgNamesLoop, hname, h1, h2, h3] at hpass
          | false =>
            have hreg2 := @pdDisjoint_addPkg _ _ incl hreg h1 h3
            simp only [pkgNamesLoop, hname, h1, h2, h3] at hpass ⊢
            simp only [Bool.false_eq_true, if_false] at hpass ⊢
            exact ih _ (nm :: acc) hreg2 hpass

theorem prevNamesLoop_disjoint (incl pkgname : String) :
    ∀ (pns : List String) (reg : Registry),
      pdDisjoint reg → pdDisjoint (prevNamesLoop incl pkgname pns reg).1 := by
  intro pns
  induction pns with
  | nil =>
    intro reg hreg
    simpa [prevNamesLoop] using hreg
  | cons pn rest ih =>
    intro reg hreg
    cases h1 : ciContains reg.previous_package_names pn with
    | true => simpa [prevNamesLoop, h1] using hreg
    | false =>
      cases h2 : ciContains reg.package_names pn with
      | true => simpa [prevNamesLoop, h1, h2] using hreg
      | false =>
        simp only [prevNamesLoop, h1, h2]
        simp only [Bool.false_eq_true, if_false]
        exact ih _ (pdDisjoint_prevUpdate hreg)

/-- C1 (amended): the package-name and dependency-name registries stay
case-insensitively disjoint across every entity-validator step that does
not report a failure; collisions that involve previous names are only
partially detected, so no such guarantee extends to the previous-name
registry. -/
theorem c1_registry_pd_amended :
    (∀ incl deps reg, pdDisjoint reg →
      (test_dependency_names incl deps reg).2 = .pass →
      pdDisjoint (test_dependency_names incl deps reg).1) ∧
    (∀ incl pkgs reg, pdDisjoint reg →
      (test_repository_package_names incl pkgs reg).2 = .pass →
      pdDisjoint (test_repository_package_names incl pkgs reg).1) ∧
    (∀ incl p reg, pdDisjoint reg →
      pdDisjoint (test_package_previous_names incl p reg).1) := by
  refine ⟨?_, ?_, ?_⟩
  · intro incl deps reg hreg hpass
    cases hm : parseIncludeLetter incl with
    | none => simp [test_dependency_names, hm] at hpass
    | some letter =>
      rcases hl : depNamesLoop incl deps reg [] with ⟨reg2, names, res⟩
      have hd := depNamesLoop_disjoint incl deps reg [] hreg
      rw [hl] at hd
      cases res with
      | crash => simp [test_dependency_names, hm, hl] at hpass
      | fail => simp [test_dependency_names, hm, hl] at hpass
      | pass =>
        simp only [test_dependency_names, hm, hl]
        exact hd rfl
  · intro incl pkgs reg hreg hpass
    cases hm : parseIncludeLetter incl with
    | none => simp [test_repository_package_names, hm] at hpass
    | some letter =>
      rcases hl : pkgNamesLoop incl pkgs reg [] with ⟨reg2, names, res⟩
      have hd := pkgNamesLoop_disjoint incl pkgs reg [] hreg
      rw [hl] at hd
      cases res with
      | crash => simp [test_repository_package_names, hm, hl] at hpass
      | fail => simp [test_repository_package_names, hm, hl] at hpass
      | pass =>
        cases hs : shardLoop letter names with
        | crash => simp [test_repository_package_names, hm, hl, hs] at hpass
        | fail => simp [test_repository_package_names, hm, hl, hs] at hpass
        | pass =>
          simp only [test_repository_package_names, hm, hl, hs]
          exact hd rfl
  · intro incl p reg hreg
    cases hname : get_package_name p.name p.details with
    | none => simpa [test_package_previous_names, hname] using hreg
    | some pkgname =>
      simp only [test_package_previous_names, hname]
      exact prevNamesLoop_disjoint incl pkgname p.previous_names reg hreg

theorem c1_registry_witness :
    pdDisjoint (test_dependency_names "dependencies.json"
      [⟨some "Foo", none, [], none⟩] emptyRegistry).1 :=
  c1_registry_pd_amended.1 "dependencies.json" [⟨some "Foo", none, [], none⟩]
    emptyRegistry (fun p hp => absurd hp (List.not_mem_nil p)) (by decide)

/-- C1 counterexample: a package registers the previous name "Foo"
(step passes), then a dependency named "Foo" is validated and also passes,
although the two share a case-insensitive name; afterwards "Foo" belongs
to both the dependency-name registry and the previous-name registry, with
no uniqueness failure reported by either step. -/
theorem c1_dep_prev_collision_undetected :
    c1PrevStep.2 = .pass ∧ c1DepStep.2 = .pass ∧
    ciContains c1DepStep.1.dependency_names "Foo" = true ∧
    ciContains c1DepStep.1.previous_package_names "Foo" = true := by decide

/-! ## Resolver theorems for claims C3 and C5 -/

theorem includeTestsAux_nil (uj : String → String → String)
    (env : String → DocOutcome) (fuel : Nat) :
    includeTestsAux uj env fuel [] = .ok [] [] := by
  cases fuel <;> rfl

/-- C3: evaluation of the resolver at the failing input: a fetched
document whose `schema_version` is the non-numeric string "beta" makes the
whole generation crash with an uncaught ValueError raised by `float`,
instead of emitting exactly one failing check and stopping that branch. -/
theorem c3_nonnumeric_schema_crash :
    include_tests idJoin envBetaSchema 1 "https://example.com/repository.json" = .crash ∧
    envBetaSchema "https://example.com/repository.json" = .doc ⟨some "beta", none, none⟩ ∧
    parsePyFloat "beta" = none := by decide

/-- C5 (amended): a fetched document whose schema version is present and
numerically one of the four recognized old versions produces no checks at
all and does not recurse into its includes; the per-version skip counter
is incremented by one, unless the path is on the known-bad-repositories
deny-list, in which case the document is skipped without being counted. -/
theorem c5_schema_skip_amended (uj : String → String → String)
    (env : String → DocOutcome) (fuel : Nat) (path : String) (d : RDoc)
    (v : String) (n : PyNum)
    (hdoc : env path = .doc d) (hv : d.schema_version = some v)
    (hne : v ≠ "3.0.0") (hp : parsePyFloat v = some n)
    (hin : pyNumInAllowed n = true) :
    (path ∉ BAD_REPOS → include_tests uj env (fuel + 1) path = .ok [] [v]) ∧
    (path ∈ BAD_REPOS → include_tests uj env (fuel + 1) path = .ok [] []) := by
  have hbody : processDoc path (env path) =
      (if path ∈ BAD_REPOS then some ([], [], []) else some ([], [v], [])) := by
    rw [hdoc]
    simp only [processDoc, hv, hne, hp, hin, if_true, if_false, ite_not]
  constructor
  · intro hb
    simp only [include_tests, includeTestsAux, hbody, if_neg hb]
    simp [includeTestsAux_nil]
  · intro hb
    simp only [include_tests, includeTestsAux, hbody, if_pos hb]
    simp [includeTestsAux_nil]

theorem c5_schema_skip_witness :
    include_tests idJoin envSkipNormal 1 "r.json" = .ok [] ["2.0"] :=
  (c5_schema_skip_amended idJoin envSkipNormal 0 "r.json"
    ⟨some "2.0", none, none⟩ "2.0" (.fin 20 10)
    (by decide) rfl (by decide) (by decide) (by decide)).1 (by decide)

/-- C5 counterexample: at the deny-listed path, a schema-2.0 document is
indeed skipped with no checks emitted and no recursion, but the
per-version skip counter is NOT incremented, because the deny-list check
returns before the skip counting. -/
theorem c5_bad_repo_skip_uncounted :
    include_tests idJoin envSkipBadRepo 1 monokaiPath = .ok [] [] ∧
    include_tests idJoin envSkipBadRepo 1 monokaiPath ≠ .ok [] ["2.0"] ∧
    envSkipBadRepo monokaiPath = .doc ⟨some "2.0", none, none⟩ := by decide

end StSchema
